import Mathlib

/-!
Shallow embedding of the mev-build-rs auctioneer service
(`mev-build-rs/src/auctioneer/service.rs`).

The single coordinating task's mutable state (auction schedule, open-auctions
table, processed-attributes table) is modelled as a `ServiceState` record of
association lists keyed by `Nat` ids.  External collaborators (the payload
builder engine, the payload store, the relays' fetch and submit endpoints,
and the bidder's reply channels) are passed in as explicit function arguments
describing their responses.  Rust panics (`expect`, `unreachable!`, and
out-of-bounds indexing) are modelled by the `PanicOr` result type.
-/

namespace MevBuild

abbrev Slot := Nat
abbrev Epoch := Nat
abbrev PayloadId := Nat
abbrev RelaySet := List Nat

/-- Result of a code path that can hit a Rust panic. -/
inductive PanicOr (α : Type) where
  | panic (msg : String)
  | ok (val : α)
deriving DecidableEq, Repr

/-- Proposer preferences for a slot: public key, fee recipient, gas limit. -/
structure Proposer where
  public_key : Nat
  fee_recipient : Nat
  gas_limit : Nat
deriving DecidableEq, Repr

abbrev Proposals := List (Proposer × RelaySet)

/-- Per-proposer overrides attached to build attributes. -/
structure ProposalAttributes where
  proposer_gas_limit : Nat
  proposer_fee_recipient : Nat
deriving DecidableEq, Repr

/-- Inner (reth) payload builder attributes: parent hash and timestamp. -/
structure InnerAttributes where
  parent : Nat
  timestamp : Nat
deriving DecidableEq, Repr

/-- Builder payload attributes: the inner attributes plus an optional
per-proposer proposal override. -/
structure BuilderPayloadBuilderAttributes where
  inner : InnerAttributes
  proposal : Option ProposalAttributes
deriving DecidableEq, Repr

def BuilderPayloadBuilderAttributes.timestamp
    (a : BuilderPayloadBuilderAttributes) : Nat :=
  a.inner.timestamp

def encodeProposal : Option ProposalAttributes → Nat
  | none => 0
  | some p => Nat.pair p.proposer_gas_limit p.proposer_fee_recipient + 1

/-- PayloadId is deterministically derived from the full attribute set,
including the proposal overrides; modelled with an injective pairing. -/
def BuilderPayloadBuilderAttributes.payload_id
    (a : BuilderPayloadBuilderAttributes) : PayloadId :=
  Nat.pair a.inner.parent (Nat.pair a.inner.timestamp (encodeProposal a.proposal))

def BuilderPayloadBuilderAttributes.attach_proposal
    (a : BuilderPayloadBuilderAttributes) (p : ProposalAttributes) :
    BuilderPayloadBuilderAttributes :=
  { a with proposal := some p }

/-- Source `make_attributes_for_proposer`: clone the attributes and attach the
proposer's gas-limit and fee-recipient overrides. -/
def make_attributes_for_proposer (attributes : BuilderPayloadBuilderAttributes)
    (proposer : Proposer) : BuilderPayloadBuilderAttributes :=
  attributes.attach_proposal ⟨proposer.gas_limit, proposer.fee_recipient⟩

/-- Fork versions of the consensus spec (`ethereum_consensus::Fork`). -/
inductive Fork where
  | phase0
  | altair
  | bellatrix
  | capella
  | deneb
  | electra
deriving DecidableEq, Repr

/-- The sealed block inside an `EthBuiltPayload`. -/
structure Block where
  hash : Nat
  number : Nat
  parent_hash : Nat
  gas_limit : Nat
  gas_used : Nat
  fork : Fork
deriving DecidableEq, Repr

/-- A built payload from the engine: its id, block, fees and blob sidecars. -/
structure EthBuiltPayload where
  id : PayloadId
  block : Block
  fees : Nat
  sidecars : List Nat
deriving DecidableEq, Repr

/-- Execution payload produced by `to_execution_payload`, tagged with its
fork version. -/
structure ExecutionPayload where
  version : Fork
  block_hash : Nat
deriving DecidableEq, Repr

def to_bytes32 (x : Nat) : Nat := x

def to_bytes20 (x : Nat) : Nat := x

def to_execution_payload (b : Block) : ExecutionPayload :=
  ⟨b.fork, b.hash⟩

def to_blobs_bundle (sidecars : List Nat) : List Nat := sidecars

/-- The bid trace record accompanying a submission. -/
structure BidTrace where
  slot : Slot
  parent_hash : Nat
  block_hash : Nat
  builder_public_key : Nat
  proposer_public_key : Nat
  proposer_fee_recipient : Nat
  gas_limit : Nat
  gas_used : Nat
  value : Nat
deriving DecidableEq, Repr

/-- External signing primitive (out of scope per the spec); modelled as a
deterministic stand-in, with the fallible Result type kept as `Except`. -/
def sign_builder_message (message : BidTrace) (signing_key : Nat) :
    Except Unit Nat :=
  Except.ok (Nat.pair signing_key message.block_hash)

/-- Signed bid submission: a closed tagged union over the three recognized
fork variants; only the Deneb variant carries a blobs bundle. -/
inductive SignedBidSubmission where
  | bellatrix (message : BidTrace) (execution_payload : ExecutionPayload)
      (signature : Nat)
  | capella (message : BidTrace) (execution_payload : ExecutionPayload)
      (signature : Nat)
  | deneb (message : BidTrace) (execution_payload : ExecutionPayload)
      (blobs_bundle : List Nat) (signature : Nat)
deriving DecidableEq, Repr

def SignedBidSubmission.version : SignedBidSubmission → Fork
  | .bellatrix _ _ _ => Fork.bellatrix
  | .capella _ _ _ => Fork.capella
  | .deneb _ _ _ _ => Fork.deneb

def SignedBidSubmission.message : SignedBidSubmission → BidTrace
  | .bellatrix m _ _ => m
  | .capella m _ _ => m
  | .deneb m _ _ _ => m

def SignedBidSubmission.blobs_bundle : SignedBidSubmission → Option (List Nat)
  | .bellatrix _ _ _ => none
  | .capella _ _ _ => none
  | .deneb _ _ b _ => some b

/-- In-flight auction: slot, per-proposer attributes, proposer info, and the
relay indices that must receive the eventual bid. -/
structure AuctionContext where
  slot : Slot
  attributes : BuilderPayloadBuilderAttributes
  proposer : Proposer
  relays : RelaySet
deriving DecidableEq, Repr

/-- Service configuration: signing key, derived public key, relay list.
Relays are modelled by their endpoint value (a `Nat`). -/
structure Config where
  secret_key : Nat
  public_key : Nat
  relays : List Nat
deriving DecidableEq, Repr

/-- Consensus context fields used by the service. -/
structure Context where
  slots_per_epoch : Nat
  seconds_per_slot : Nat
deriving DecidableEq, Repr

/-- Association-list lookup, modelling `HashMap::get`. -/
def assocLookup {β : Type} : List (Nat × β) → Nat → Option β
  | [], _ => none
  | (k, v) :: rest, key => if k = key then some v else assocLookup rest key

/-- Association-list insert-or-replace, modelling `HashMap::insert`. -/
def assocSet {β : Type} : List (Nat × β) → Nat → β → List (Nat × β)
  | [], key, val => [(key, val)]
  | (k, v) :: rest, key, val =>
    if k = key then (key, val) :: rest else (k, v) :: assocSet rest key val

abbrev AuctionScheduleT := List (Slot × Proposals)

/-- Modelled from the spec: the auction-schedule collaborator lives in
`auction_schedule.rs`, which is outside the provided sources; per the spec it
maps a slot to the list of (proposer, relay-set) pairs currently known. -/
def AuctionSchedule.get_matching_proposals (sched : AuctionScheduleT)
    (slot : Slot) : Option Proposals :=
  assocLookup sched slot

/-- Modelled from the spec: at each epoch transition the schedule is pruned,
dropping entries for slots below the new epoch's floor. -/
def AuctionSchedule.clear (sched : AuctionScheduleT) (retain_slot : Slot) :
    AuctionScheduleT :=
  sched.filter (fun e => retain_slot ≤ e.1)

/-- Modelled from the spec: record that `relay_index` serves `proposer`,
extending the proposer's relay set (or adding the proposer) in place. -/
def addProposal : Proposals → Proposer → Nat → Proposals
  | [], proposer, relay_index => [(proposer, [relay_index])]
  | (p, rs) :: rest, proposer, relay_index =>
    if p = proposer then
      (p, if relay_index ∈ rs then rs else relay_index :: rs) :: rest
    else
      (p, rs) :: addProposal rest proposer relay_index

/-- Modelled from the spec: one relay's fetched schedule (a list of
(slot, proposer) assignments) is merged into the auction schedule under that
relay's index. -/
def AuctionSchedule.process (sched : AuctionScheduleT) (relay_index : Nat)
    (schedule : List (Slot × Proposer)) : AuctionScheduleT :=
  schedule.foldl
    (fun sc entry =>
      assocSet sc entry.1
        (addProposal ((assocLookup sc entry.1).getD []) entry.2 relay_index))
    sched

/-- Mutable orchestration state owned by the auctioneer task. -/
structure ServiceState where
  auction_schedule : AuctionScheduleT
  open_auctions : List (PayloadId × AuctionContext)
  processed_payload_attributes : List (Slot × List PayloadId)
deriving DecidableEq, Repr

/-- Source `ethereum_consensus::clock::convert_timestamp_to_slot`: checked
subtraction of the genesis time, then division by the slot duration. -/
def convert_timestamp_to_slot (timestamp genesis_time seconds_per_slot : Nat) :
    Option Slot :=
  if timestamp < genesis_time then none
  else some ((timestamp - genesis_time) / seconds_per_slot)

/-- Source `on_epoch`: clear stale state below the new epoch's floor slot. -/
def on_epoch (context : Context) (st : ServiceState) (epoch : Epoch) :
    ServiceState :=
  { auction_schedule :=
      AuctionSchedule.clear st.auction_schedule (epoch * context.slots_per_epoch)
    open_auctions :=
      st.open_auctions.filter
        (fun p => epoch * context.slots_per_epoch ≤ p.2.slot)
    processed_payload_attributes :=
      st.processed_payload_attributes.filter
        (fun p => epoch * context.slots_per_epoch ≤ p.1) }

/-- Source `fetch_proposer_schedules` loop body: each relay is queried in
index order; an `Ok` schedule is merged under the relay's index, an error is
warn-logged (the returned list collects the warned indices) and skipped. -/
def fetchGo : AuctionScheduleT → Nat → List (Option (List (Slot × Proposer))) →
    AuctionScheduleT × List Nat
  | sched, _, [] => (sched, [])
  | sched, i, Option.some s :: rest =>
    fetchGo (AuctionSchedule.process sched i s) (i + 1) rest
  | sched, i, Option.none :: rest =>
    ((fetchGo sched (i + 1) rest).1, i :: (fetchGo sched (i + 1) rest).2)

/-- Source `fetch_proposer_schedules`: `results` holds, per configured relay
in order, either the fetched schedule or a transport error (`none`). -/
def fetch_proposer_schedules (sched : AuctionScheduleT)
    (results : List (Option (List (Slot × Proposer)))) :
    AuctionScheduleT × List Nat :=
  fetchGo sched 0 results

/-- Successful fetches with their relay indices, in relay order. -/
def okEntries : Nat → List (Option (List (Slot × Proposer))) →
    List (Nat × List (Slot × Proposer))
  | _, [] => []
  | i, Option.some s :: rest => (i, s) :: okEntries (i + 1) rest
  | i, Option.none :: rest => okEntries (i + 1) rest

/-- Relay indices whose fetch failed, in relay order. -/
def errIndices : Nat → List (Option (List (Slot × Proposer))) → List Nat
  | _, [] => []
  | i, Option.some _ :: rest => errIndices (i + 1) rest
  | i, Option.none :: rest => i :: errIndices (i + 1) rest

/-- Source `start_build`: ask the engine for a new payload; on success compare
the returned id against the locally computed one, logging a high-severity
mismatch diagnostic (second component) but still returning the id; on engine
error warn and return `none`. -/
def start_build (engine : BuilderPayloadBuilderAttributes → Option PayloadId)
    (attributes : BuilderPayloadBuilderAttributes) : Option PayloadId × Bool :=
  match engine attributes with
  | some payload_id =>
    if payload_id = attributes.payload_id then (some payload_id, false)
    else (some payload_id, true)
  | none => (none, false)

/-- Source `process_proposals`: for each matching (proposer, relay-set) pair,
derive the per-proposer attributes and request a build; on success construct
an `AuctionContext`.  Returns the new auctions and every attribute set for
which a build was requested. -/
def process_proposals (engine : BuilderPayloadBuilderAttributes → Option PayloadId)
    (slot : Slot) (attributes : BuilderPayloadBuilderAttributes) :
    Proposals → List AuctionContext × List BuilderPayloadBuilderAttributes
  | [] => ([], [])
  | pr :: rest =>
    (match (start_build engine (make_attributes_for_proposer attributes pr.1)).1 with
     | some _ =>
       (⟨slot, make_attributes_for_proposer attributes pr.1, pr.1, pr.2⟩ ::
          (process_proposals engine slot attributes rest).1,
        make_attributes_for_proposer attributes pr.1 ::
          (process_proposals engine slot attributes rest).2)
     | none =>
       ((process_proposals engine slot attributes rest).1,
        make_attributes_for_proposer attributes pr.1 ::
          (process_proposals engine slot attributes rest).2))

/-- Source `process_new_auction`: key the open-auctions table by the locally
computed payload id (`entry(..).or_insert_with(..)`, first writer wins), then
forward the stored auction to the bidder.  The forwarded auction is the
second component. -/
def process_new_auction (st : ServiceState) (auction : AuctionContext) :
    ServiceState × AuctionContext :=
  match assocLookup st.open_auctions auction.attributes.payload_id with
  | some existing => (st, existing)
  | none =>
    ({ st with open_auctions :=
        assocSet st.open_auctions auction.attributes.payload_id auction },
     auction)

def process_new_auctions : ServiceState → List AuctionContext →
    ServiceState × List AuctionContext
  | st, [] => (st, [])
  | st, a :: rest =>
    ((process_new_auctions (process_new_auction st a).1 rest).1,
     (process_new_auction st a).2 ::
       (process_new_auctions (process_new_auction st a).1 rest).2)

/-- Record the payload id in the slot's processed-set
(`entry(slot).or_default()` followed by `insert`). -/
def markProcessed (st : ServiceState) (slot : Slot) (payload_id : PayloadId) :
    ServiceState :=
  { st with processed_payload_attributes :=
      (assocSet st.processed_payload_attributes slot
        (payload_id :: (assocLookup st.processed_payload_attributes slot).getD [])) }

/-- Outcome of `on_payload_attributes`: the resulting state, the attribute
sets for which a build was requested, and the auctions forwarded to the
bidder. -/
structure AttrOutcome where
  state : ServiceState
  builds_requested : List BuilderPayloadBuilderAttributes
  forwarded : List AuctionContext
deriving DecidableEq, Repr

/-- Source `on_payload_attributes`: convert the timestamp to a slot (a
pre-genesis timestamp panics via `expect`), suppress duplicates through the
per-slot processed-set, look up matching proposals, trigger builds and
publish the new auctions. -/
def on_payload_attributes (context : Context) (genesis_time : Nat)
    (engine : BuilderPayloadBuilderAttributes → Option PayloadId)
    (st : ServiceState) (attributes : BuilderPayloadBuilderAttributes) :
    PanicOr AttrOutcome :=
  match convert_timestamp_to_slot attributes.timestamp genesis_time
      context.seconds_per_slot with
  | none => PanicOr.panic "is past genesis"
  | some slot =>
    if attributes.payload_id ∈
        (assocLookup st.processed_payload_attributes slot).getD [] then
      PanicOr.ok ⟨st, [], []⟩
    else
      match AuctionSchedule.get_matching_proposals st.auction_schedule slot with
      | none => PanicOr.ok ⟨markProcessed st slot attributes.payload_id, [], []⟩
      | some proposals =>
        PanicOr.ok
          ⟨(process_new_auctions (markProcessed st slot attributes.payload_id)
              (process_proposals engine slot attributes proposals).1).1,
           (process_proposals engine slot attributes proposals).2,
           (process_new_auctions (markProcessed st slot attributes.payload_id)
              (process_proposals engine slot attributes proposals).1).2⟩

/-- Source `prepare_submission`: build the bid trace from the auction context
and the resolved payload, sign it, and wrap everything in the submission
variant matching the execution payload's fork version; any fork outside the
three recognized variants hits `unreachable!`. -/
def prepare_submission (payload : EthBuiltPayload)
    (signing_key public_key : Nat) (auction_context : AuctionContext) :
    PanicOr (Except Unit SignedBidSubmission) :=
  match sign_builder_message
      ⟨auction_context.slot,
       to_bytes32 auction_context.attributes.inner.parent,
       to_bytes32 payload.block.hash,
       public_key,
       auction_context.proposer.public_key,
       to_bytes20 auction_context.proposer.fee_recipient,
       payload.block.gas_limit,
       payload.block.gas_used,
       payload.fees⟩ signing_key with
  | Except.error e => PanicOr.ok (Except.error e)
  | Except.ok signature =>
    match (to_execution_payload payload.block).version with
    | Fork.bellatrix =>
      PanicOr.ok (Except.ok (SignedBidSubmission.bellatrix
        ⟨auction_context.slot,
         to_bytes32 auction_context.attributes.inner.parent,
         to_bytes32 payload.block.hash,
         public_key,
         auction_context.proposer.public_key,
         to_bytes20 auction_context.proposer.fee_recipient,
         payload.block.gas_limit,
         payload.block.gas_used,
         payload.fees⟩
        (to_execution_payload payload.block) signature))
    | Fork.capella =>
      PanicOr.ok (Except.ok (SignedBidSubmission.capella
        ⟨auction_context.slot,
         to_bytes32 auction_context.attributes.inner.parent,
         to_bytes32 payload.block.hash,
         public_key,
         auction_context.proposer.public_key,
         to_bytes20 auction_context.proposer.fee_recipient,
         payload.block.gas_limit,
         payload.block.gas_used,
         payload.fees⟩
        (to_execution_payload payload.block) signature))
    | Fork.deneb =>
      PanicOr.ok (Except.ok (SignedBidSubmission.deneb
        ⟨auction_context.slot,
         to_bytes32 auction_context.attributes.inner.parent,
         to_bytes32 payload.block.hash,
         public_key,
         auction_context.proposer.public_key,
         to_bytes20 auction_context.proposer.fee_recipient,
         payload.block.gas_limit,
         payload.block.gas_used,
         payload.fees⟩
        (to_execution_payload payload.block)
        (to_blobs_bundle payload.sidecars) signature))
    | _ => PanicOr.panic "unreachable fork"

/-- One observed step of the relay-dispatch loop in `submit_payload`. -/
inductive SubmitEvent where
  | submitted (relay_index : Nat)
  | submitFailed (relay_index : Nat)
  | unknownRelay (relay_index : Nat)
  | prepareFailed
deriving DecidableEq, Repr

/-- Source `submit_payload`: look up the auction for the payload's id
(`expect("has auction")`), format the relay list for the info log — note the
direct indexing `self.relays[index]`, which panics on an out-of-range index —
then prepare the submission and dispatch it to every relay index in the
auction's relay set, one at a time, via the checked `relays.get(index)`.
`relayOk` gives each relay's submit outcome. -/
def submit_payload (config : Config) (st : ServiceState)
    (relayOk : Nat → Bool) (payload : EthBuiltPayload) :
    PanicOr (List SubmitEvent) :=
  match assocLookup st.open_auctions payload.id with
  | none => PanicOr.panic "has auction"
  | some auction =>
    if auction.relays.all (fun i => decide (i < config.relays.length)) then
      match prepare_submission payload config.secret_key config.public_key
          auction with
      | PanicOr.panic m => PanicOr.panic m
      | PanicOr.ok (Except.error _) => PanicOr.ok [SubmitEvent.prepareFailed]
      | PanicOr.ok (Except.ok _) =>
        PanicOr.ok (auction.relays.map (fun relay_index =>
          match config.relays[relay_index]? with
          | some _ =>
            if relayOk relay_index then SubmitEvent.submitted relay_index
            else SubmitEvent.submitFailed relay_index
          | none => SubmitEvent.unknownRelay relay_index))
    else PanicOr.panic "index out of bounds"

/-- Messages from the bidding subsystem (`bidder::Message`). -/
inductive BidderMessage where
  | NewAuction (auction : AuctionContext)
  | RevenueQuery (payload_id : PayloadId)
  | Dispatch (payload_id : PayloadId) (value : Nat) (keep_alive : Bool)
deriving DecidableEq, Repr

/-- Observable outcome of `process_bid_update`: the value sent on a revenue
reply channel (if any), whether an engine error was warn-logged, and the
relay-dispatch events of a submission. -/
structure BidOutcome where
  reply : Option (Option Nat)
  engine_error_logged : Bool
  submit_events : List SubmitEvent
deriving DecidableEq, Repr

/-- Source `process_bid_update`: a revenue query peeks the store's best
payload and replies with its fees, replying "no value" when the store has
nothing or errors (the error is warn-logged); a dispatch command resolves the
final payload and submits it, warn-logging a resolution error; other message
kinds are ignored.  `best` and `resolve` give the payload store's responses. -/
def process_bid_update (config : Config) (st : ServiceState)
    (best resolve : PayloadId → Option (Except Unit EthBuiltPayload))
    (relayOk : Nat → Bool) : BidderMessage → PanicOr BidOutcome
  | BidderMessage.RevenueQuery payload_id =>
    (match best payload_id with
     | some (Except.ok payload) => PanicOr.ok ⟨some (some payload.fees), false, []⟩
     | some (Except.error _) => PanicOr.ok ⟨some none, true, []⟩
     | none => PanicOr.ok ⟨some none, false, []⟩)
  | BidderMessage.Dispatch payload_id _ _ =>
    (match resolve payload_id with
     | some (Except.ok payload) =>
       (match submit_payload config st relayOk payload with
        | PanicOr.panic m => PanicOr.panic m
        | PanicOr.ok events => PanicOr.ok ⟨none, false, events⟩)
     | some (Except.error _) => PanicOr.ok ⟨none, true, []⟩
     | none => PanicOr.ok ⟨none, false, []⟩)
  | BidderMessage.NewAuction _ => PanicOr.ok ⟨none, false, []⟩

/-! Concrete instances used by the witness theorems below. -/

def c1payload : EthBuiltPayload := ⟨3, ⟨11, 1, 10, 30, 21, Fork.capella⟩, 99, []⟩

def c1auction : AuctionContext := ⟨100, ⟨⟨10, 100⟩, none⟩, ⟨7, 8, 25⟩, [0, 1]⟩

def c1config : Config := ⟨1, 2, [77]⟩

def c1state : ServiceState := ⟨[], [(3, c1auction)], []⟩

def c2wctx : Context := ⟨32, 1⟩

def c2wproposer : Proposer := ⟨7, 8, 25⟩

def c2wattrs : BuilderPayloadBuilderAttributes := ⟨⟨0, 100⟩, none⟩

def c2wstate : ServiceState := ⟨[(100, [(c2wproposer, [0, 2])])], [], []⟩

def c2wengine : BuilderPayloadBuilderAttributes → Option PayloadId :=
  fun a => some a.payload_id

def c2wattrsP : BuilderPayloadBuilderAttributes :=
  make_attributes_for_proposer c2wattrs c2wproposer

def c2wauction : AuctionContext := ⟨100, c2wattrsP, c2wproposer, [0, 2]⟩

def c2wo1 : AttrOutcome :=
  ⟨⟨[(100, [(c2wproposer, [0, 2])])], [(c2wattrsP.payload_id, c2wauction)],
    [(100, [c2wattrs.payload_id])]⟩, [c2wattrsP], [c2wauction]⟩

def c4wattrs : BuilderPayloadBuilderAttributes := ⟨⟨0, 0⟩, none⟩

def c4wengine : BuilderPayloadBuilderAttributes → Option PayloadId :=
  fun _ => some 1

def c4wstate : ServiceState := ⟨[], [], []⟩

def c4wproposer : Proposer := ⟨7, 8, 25⟩

def c4wauction : AuctionContext := ⟨5, c4wattrs, c4wproposer, [0]⟩

def c5wauction : AuctionContext := ⟨100, ⟨⟨10, 100⟩, none⟩, ⟨7, 8, 25⟩, [0, 2]⟩

def c5wdeneb : EthBuiltPayload := ⟨3, ⟨11, 1, 10, 30, 21, Fork.deneb⟩, 99, [2]⟩

def c5welectra : EthBuiltPayload := ⟨4, ⟨12, 1, 10, 30, 21, Fork.electra⟩, 99, []⟩

def c6wconfig : Config := ⟨1, 2, [77]⟩

def c6wstate : ServiceState := ⟨[], [], []⟩

def c6wpayload : EthBuiltPayload := ⟨3, ⟨11, 1, 10, 30, 21, Fork.capella⟩, 42, []⟩

def c6wbest : PayloadId → Option (Except Unit EthBuiltPayload) :=
  fun _ => some (Except.ok c6wpayload)

def c6wbestErr : PayloadId → Option (Except Unit EthBuiltPayload) :=
  fun _ => some (Except.error ())

def c6wnone : PayloadId → Option (Except Unit EthBuiltPayload) :=
  fun _ => none

def c7wpayload : EthBuiltPayload := ⟨3, ⟨11, 1, 10, 30, 21, Fork.capella⟩, 99, []⟩

def c7wauction : AuctionContext := ⟨100, ⟨⟨10, 100⟩, none⟩, ⟨7, 8, 25⟩, [0]⟩

def c7wsub : SignedBidSubmission :=
  SignedBidSubmission.capella ⟨100, 10, 11, 2, 7, 8, 30, 21, 99⟩
    ⟨Fork.capella, 11⟩ (Nat.pair 1 11)

def c9wconfig : Config := ⟨1, 2, [77]⟩

def c9wpayload : EthBuiltPayload := ⟨5, ⟨11, 1, 10, 30, 21, Fork.capella⟩, 42, []⟩

def c9wresolve : PayloadId → Option (Except Unit EthBuiltPayload) :=
  fun _ => some (Except.ok c9wpayload)

def c9wbest : PayloadId → Option (Except Unit EthBuiltPayload) :=
  fun _ => none

def c9wstate : ServiceState := ⟨[], [], []⟩

def c10wctx : Context := ⟨32, 1⟩

def c10wattrs : BuilderPayloadBuilderAttributes := ⟨⟨0, 50⟩, none⟩

def c10wengine : BuilderPayloadBuilderAttributes → Option PayloadId :=
  fun a => some a.payload_id

def c10wstate : ServiceState := ⟨[], [], []⟩

def c10wo1 : AttrOutcome := ⟨⟨[], [], [(50, [c10wattrs.payload_id])]⟩, [], []⟩

def c10wproposer : Proposer := ⟨9, 10, 26⟩

def c10wsched : AuctionScheduleT := [(50, [(c10wproposer, [0])])]

/-! Helper lemmas about the association-list operations and the service
functions; these are shared by the claim theorems. -/

theorem assocLookup_assocSet_self {β : Type} (l : List (Nat × β)) (k : Nat)
    (v : β) : assocLookup (assocSet l k v) k = some v := by
  induction l with
  | nil => simp [assocSet, assocLookup]
  | cons hd t ih =>
    rcases hd with ⟨k1, v1⟩
    by_cases h : k1 = k
    · subst h
      simp [assocSet, assocLookup]
    · simp [assocSet, assocLookup, h, ih]

theorem assocLookup_assocSet_ne {β : Type} (l : List (Nat × β)) (k k2 : Nat)
    (v : β) (h : k2 ≠ k) :
    assocLookup (assocSet l k v) k2 = assocLookup l k2 := by
  induction l with
  | nil => simp [assocSet, assocLookup, Ne.symm h]
  | cons hd t ih =>
    rcases hd with ⟨k1, v1⟩
    by_cases h1 : k1 = k
    · subst h1
      simp [assocSet, assocLookup, Ne.symm h]
    · simp only [assocSet, if_neg h1, assocLookup]
      by_cases h2 : k1 = k2
      · simp [h2]
      · simp [h2, ih]

theorem process_new_auction_preserves (st : ServiceState) (a : AuctionContext) :
    (process_new_auction st a).1.processed_payload_attributes =
      st.processed_payload_attributes ∧
    (process_new_auction st a).1.auction_schedule = st.auction_schedule := by
  unfold process_new_auction
  cases assocLookup st.open_auctions a.attributes.payload_id <;> simp

theorem process_new_auctions_preserves :
    ∀ (l : List AuctionContext) (st : ServiceState),
      (process_new_auctions st l).1.processed_payload_attributes =
        st.processed_payload_attributes ∧
      (process_new_auctions st l).1.auction_schedule = st.auction_schedule := by
  intro l
  induction l with
  | nil => intro st; simp [process_new_auctions]
  | cons a rest ih =>
    intro st
    have h1 := process_new_auction_preserves st a
    have h2 := ih (process_new_auction st a).1
    simp only [process_new_auctions]
    exact ⟨h2.1.trans h1.1, h2.2.trans h1.2⟩

theorem process_proposals_builds
    (engine : BuilderPayloadBuilderAttributes → Option PayloadId) (slot : Slot)
    (attributes : BuilderPayloadBuilderAttributes) :
    ∀ proposals : Proposals,
      (process_proposals engine slot attributes proposals).2 =
        proposals.map (fun pr => make_attributes_for_proposer attributes pr.1) := by
  intro proposals
  induction proposals with
  | nil => rfl
  | cons pr rest ih =>
    simp only [process_proposals, List.map]
    cases (start_build engine (make_attributes_for_proposer attributes pr.1)).1 <;>
      simp [ih]

theorem markProcessed_lookup (st : ServiceState) (slot : Slot)
    (payload_id : PayloadId) :
    assocLookup (markProcessed st slot payload_id).processed_payload_attributes
      slot =
      some (payload_id ::
        (assocLookup st.processed_payload_attributes slot).getD []) := by
  unfold markProcessed
  exact assocLookup_assocSet_self _ _ _

theorem on_payload_attributes_dup (context : Context) (genesis_time : Nat)
    (engine : BuilderPayloadBuilderAttributes → Option PayloadId)
    (st : ServiceState) (a : BuilderPayloadBuilderAttributes) (slot : Slot)
    (hconv : convert_timestamp_to_slot a.timestamp genesis_time
      context.seconds_per_slot = some slot)
    (hmem : a.payload_id ∈
      (assocLookup st.processed_payload_attributes slot).getD []) :
    on_payload_attributes context genesis_time engine st a =
      PanicOr.ok ⟨st, [], []⟩ := by
  unfold on_payload_attributes
  rw [hconv]
  simp [hmem]

theorem on_payload_attributes_fresh_none (context : Context)
    (genesis_time : Nat)
    (engine : BuilderPayloadBuilderAttributes → Option PayloadId)
    (st : ServiceState) (a : BuilderPayloadBuilderAttributes) (slot : Slot)
    (hconv : convert_timestamp_to_slot a.timestamp genesis_time
      context.seconds_per_slot = some slot)
    (hmem : a.payload_id ∉
      (assocLookup st.processed_payload_attributes slot).getD [])
    (hprop : AuctionSchedule.get_matching_proposals st.auction_schedule slot =
      none) :
    on_payload_attributes context genesis_time engine st a =
      PanicOr.ok ⟨markProcessed st slot a.payload_id, [], []⟩ := by
  unfold on_payload_attributes
  rw [hconv]
  simp [hmem, hprop]

theorem on_payload_attributes_fresh_some (context : Context)
    (genesis_time : Nat)
    (engine : BuilderPayloadBuilderAttributes → Option PayloadId)
    (st : ServiceState) (a : BuilderPayloadBuilderAttributes) (slot : Slot)
    (proposals : Proposals)
    (hconv : convert_timestamp_to_slot a.timestamp genesis_time
      context.seconds_per_slot = some slot)
    (hmem : a.payload_id ∉
      (assocLookup st.processed_payload_attributes slot).getD [])
    (hprop : AuctionSchedule.get_matching_proposals st.auction_schedule slot =
      some proposals) :
    on_payload_attributes context genesis_time engine st a =
      PanicOr.ok
        ⟨(process_new_auctions (markProcessed st slot a.payload_id)
            (process_proposals engine slot a proposals).1).1,
         (process_proposals engine slot a proposals).2,
         (process_new_auctions (markProcessed st slot a.payload_id)
            (process_proposals engine slot a proposals).1).2⟩ := by
  unfold on_payload_attributes
  rw [hconv]
  simp [hmem, hprop]

theorem on_payload_attributes_ok_slot (context : Context) (genesis_time : Nat)
    (engine : BuilderPayloadBuilderAttributes → Option PayloadId)
    (st : ServiceState) (a : BuilderPayloadBuilderAttributes) (o : AttrOutcome)
    (h : on_payload_attributes context genesis_time engine st a =
      PanicOr.ok o) :
    ∃ slot, convert_timestamp_to_slot a.timestamp genesis_time
      context.seconds_per_slot = some slot := by
  cases hconv : convert_timestamp_to_slot a.timestamp genesis_time
      context.seconds_per_slot with
  | none =>
    unfold on_payload_attributes at h
    rw [hconv] at h
    simp at h
  | some slot => exact ⟨slot, rfl⟩

theorem fetchGo_eq (results : List (Option (List (Slot × Proposer)))) :
    ∀ (sched : AuctionScheduleT) (i : Nat),
      fetchGo sched i results =
        ((okEntries i results).foldl
          (fun sc p => AuctionSchedule.process sc p.1 p.2) sched,
         errIndices i results) := by
  induction results with
  | nil => intro sched i; rfl
  | cons hd rest ih =>
    intro sched i
    cases hd with
    | some s => simp [fetchGo, okEntries, errIndices, List.foldl_cons, ih]
    | none => simp [fetchGo, okEntries, errIndices, ih]

theorem submit_payload_missing (config : Config) (st : ServiceState)
    (relayOk : Nat → Bool) (payload : EthBuiltPayload)
    (habs : assocLookup st.open_auctions payload.id = none) :
    submit_payload config st relayOk payload = PanicOr.panic "has auction" := by
  unfold submit_payload
  rw [habs]

/-! Claim theorems. -/

/-- C1: the claim states that an out-of-range relay index stored in the
AuctionContext's relay set is logged as an internal-invariant violation and
skipped, never crashing the service.  On the code this fails: `submit_payload`
formats the relay list for its info log with direct indexing
(`self.relays[index]`) before the defensive checked `relays.get(index)` arm is
reached, so an out-of-range index panics there.  This theorem evaluates the
model at such an input: one configured relay, an auction whose relay set
contains index 1. -/
theorem c1_out_of_range_relay_index_panics :
    submit_payload c1config c1state (fun _ => true) c1payload =
      PanicOr.panic "index out of bounds" := by rfl

/-- C3: after processing NewEpoch(E), an entry remains in the open-auctions
table, the processed-attributes table, or the auction schedule exactly when
it was there before and its slot is at least E * slots_per_epoch: entries
strictly below the floor are dropped and all others are retained. -/
theorem c3_epoch_garbage_collection (context : Context) (st : ServiceState)
    (epoch : Epoch) :
    (∀ p : PayloadId × AuctionContext,
      p ∈ (on_epoch context st epoch).open_auctions ↔
        p ∈ st.open_auctions ∧ epoch * context.slots_per_epoch ≤ p.2.slot) ∧
    (∀ q : Slot × List PayloadId,
      q ∈ (on_epoch context st epoch).processed_payload_attributes ↔
        q ∈ st.processed_payload_attributes ∧
          epoch * context.slots_per_epoch ≤ q.1) ∧
    (∀ r : Slot × Proposals,
      r ∈ (on_epoch context st epoch).auction_schedule ↔
        r ∈ st.auction_schedule ∧ epoch * context.slots_per_epoch ≤ r.1) := by
  refine ⟨fun p => ?_, fun q => ?_, fun r => ?_⟩ <;>
    simp [on_epoch, AuctionSchedule.clear, List.mem_filter]

/-- C6: a revenue query replies with the best payload's fee value when the
store returns a payload, and replies "no value" when the store has nothing or
returns an engine error (the error case being warn-logged); in every case the
query returns normally rather than failing the service. -/
theorem c6_revenue_query_never_fails (config : Config) (st : ServiceState)
    (best resolve : PayloadId → Option (Except Unit EthBuiltPayload))
    (relayOk : Nat → Bool) (payload_id : PayloadId) :
    (∀ payload, best payload_id = some (Except.ok payload) →
      process_bid_update config st best resolve relayOk
        (BidderMessage.RevenueQuery payload_id) =
        PanicOr.ok ⟨some (some payload.fees), false, []⟩) ∧
    (best payload_id = none →
      process_bid_update config st best resolve relayOk
        (BidderMessage.RevenueQuery payload_id) =
        PanicOr.ok ⟨some none, false, []⟩) ∧
    (∀ e, best payload_id = some (Except.error e) →
      process_bid_update config st best resolve relayOk
        (BidderMessage.RevenueQuery payload_id) =
        PanicOr.ok ⟨some none, true, []⟩) ∧
    (∃ o, process_bid_update config st best resolve relayOk
      (BidderMessage.RevenueQuery payload_id) = PanicOr.ok o) := by
  refine ⟨fun payload h => ?_, fun h => ?_, fun e h => ?_, ?_⟩
  · simp only [process_bid_update, h]
  · simp only [process_bid_update, h]
  · simp only [process_bid_update, h]
  · cases hb : best payload_id with
    | none =>
      exact ⟨⟨some none, false, []⟩, by simp only [process_bid_update, hb]⟩
    | some r =>
      cases r with
      | ok p =>
        exact ⟨⟨some (some p.fees), false, []⟩,
          by simp only [process_bid_update, hb]⟩
      | error e =>
        exact ⟨⟨some none, true, []⟩, by simp only [process_bid_update, hb]⟩

theorem c6_revenue_query_never_fails_witness :
    process_bid_update c6wconfig c6wstate c6wbest c6wnone (fun _ => true)
      (BidderMessage.RevenueQuery 3) =
      PanicOr.ok ⟨some (some 42), false, []⟩ ∧
    process_bid_update c6wconfig c6wstate c6wnone c6wnone (fun _ => true)
      (BidderMessage.RevenueQuery 3) = PanicOr.ok ⟨some none, false, []⟩ ∧
    process_bid_update c6wconfig c6wstate c6wbestErr c6wnone (fun _ => true)
      (BidderMessage.RevenueQuery 3) = PanicOr.ok ⟨some none, true, []⟩ :=
  ⟨(c6_revenue_query_never_fails c6wconfig c6wstate c6wbest c6wnone
      (fun _ => true) 3).1 c6wpayload rfl,
   (c6_revenue_query_never_fails c6wconfig c6wstate c6wnone c6wnone
      (fun _ => true) 3).2.1 rfl,
   (c6_revenue_query_never_fails c6wconfig c6wstate c6wbestErr c6wnone
      (fun _ => true) 3).2.2.1 () rfl⟩

/-- C8: a schedule-fetch cycle over the configured relays merges exactly the
successfully fetched schedules, each under its own relay's index and in relay
order, while every failed fetch contributes only a warn log entry: one
relay's failure neither prevents the merges of the others nor aborts the
cycle. -/
theorem c8_fetch_failure_isolation (sched : AuctionScheduleT)
    (results : List (Option (List (Slot × Proposer)))) :
    fetch_proposer_schedules sched results =
      ((okEntries 0 results).foldl
        (fun sc p => AuctionSchedule.process sc p.1 p.2) sched,
       errIndices 0 results) :=
  fetchGo_eq results sched 0

/-- C9: when a Dispatch command's payload resolves to a payload whose id has
no entry in the open-auctions table, the submission path panics on the
missing-auction lookup (`expect("has auction")`) instead of logging and
skipping. -/
theorem c9_missing_auction_panics (config : Config) (st : ServiceState)
    (best resolve : PayloadId → Option (Except Unit EthBuiltPayload))
    (relayOk : Nat → Bool) (payload : EthBuiltPayload)
    (payload_id : PayloadId) (value : Nat) (keep_alive : Bool)
    (hres : resolve payload_id = some (Except.ok payload))
    (habs : assocLookup st.open_auctions payload.id = none) :
    process_bid_update config st best resolve relayOk
      (BidderMessage.Dispatch payload_id value keep_alive) =
      PanicOr.panic "has auction" := by
  simp only [process_bid_update, hres]
  rw [submit_payload_missing config st relayOk payload habs]

theorem c9_missing_auction_panics_witness :
    process_bid_update c9wconfig c9wstate c9wbest c9wresolve (fun _ => true)
      (BidderMessage.Dispatch 5 10 false) = PanicOr.panic "has auction" :=
  c9_missing_auction_panics c9wconfig c9wstate c9wbest c9wresolve
    (fun _ => true) c9wpayload 5 10 false rfl rfl

/-- C2: a build-attribute set delivered twice for the same slot (same
PayloadId) triggers everything only on the first delivery: the second
delivery requests no build, forwards nothing to the bidder, and leaves the
state unchanged; and on a first (fresh) delivery exactly one build is
requested per matching proposer in the slot's schedule entry. -/
theorem c2_duplicate_suppression (context : Context) (genesis_time : Nat)
    (engine : BuilderPayloadBuilderAttributes → Option PayloadId)
    (st : ServiceState) (a : BuilderPayloadBuilderAttributes)
    (o1 : AttrOutcome)
    (h1 : on_payload_attributes context genesis_time engine st a =
      PanicOr.ok o1) :
    on_payload_attributes context genesis_time engine o1.state a =
      PanicOr.ok ⟨o1.state, [], []⟩ ∧
    (∀ slot, convert_timestamp_to_slot a.timestamp genesis_time
        context.seconds_per_slot = some slot →
      a.payload_id ∉
        (assocLookup st.processed_payload_attributes slot).getD [] →
      o1.builds_requested =
        ((AuctionSchedule.get_matching_proposals st.auction_schedule
            slot).getD []).map
          (fun pr => make_attributes_for_proposer a pr.1)) := by
  obtain ⟨slot, hconv⟩ := on_payload_attributes_ok_slot _ _ _ _ _ _ h1
  by_cases hmem : a.payload_id ∈
      (assocLookup st.processed_payload_attributes slot).getD []
  · rw [on_payload_attributes_dup context genesis_time engine st a slot hconv
      hmem] at h1
    injection h1 with h1
    subst h1
    refine ⟨on_payload_attributes_dup context genesis_time engine st a slot
      hconv hmem, ?_⟩
    intro slot2 hconv2 hfresh
    rw [hconv] at hconv2
    injection hconv2 with hs
    subst hs
    exact absurd hmem hfresh
  · cases hprop : AuctionSchedule.get_matching_proposals st.auction_schedule
        slot with
    | none =>
      rw [on_payload_attributes_fresh_none context genesis_time engine st a
        slot hconv hmem hprop] at h1
      injection h1 with h1
      subst h1
      constructor
      · apply on_payload_attributes_dup context genesis_time engine _ a slot
          hconv
        show a.payload_id ∈ (assocLookup
          (markProcessed st slot a.payload_id).processed_payload_attributes
          slot).getD []
        rw [markProcessed_lookup]
        exact List.mem_cons_self _ _
      · intro slot2 hconv2 hfresh
        rw [hconv] at hconv2
        injection hconv2 with hs
        subst hs
        simp [hprop]
    | some proposals =>
      rw [on_payload_attributes_fresh_some context genesis_time engine st a
        slot proposals hconv hmem hprop] at h1
      injection h1 with h1
      subst h1
      constructor
      · apply on_payload_attributes_dup context genesis_time engine _ a slot
          hconv
        show a.payload_id ∈ (assocLookup
          (process_new_auctions (markProcessed st slot a.payload_id)
            (process_proposals engine slot a proposals).1).1.processed_payload_attributes
          slot).getD []
        rw [(process_new_auctions_preserves
          (process_proposals engine slot a proposals).1
          (markProcessed st slot a.payload_id)).1]
        rw [markProcessed_lookup]
        exact List.mem_cons_self _ _
      · intro slot2 hconv2 hfresh
        rw [hconv] at hconv2
        injection hconv2 with hs
        subst hs
        simp [hprop, process_proposals_builds]

theorem c2_duplicate_suppression_witness :
    on_payload_attributes c2wctx 0 c2wengine c2wo1.state c2wattrs =
      PanicOr.ok ⟨c2wo1.state, [], []⟩ ∧
    c2wo1.builds_requested =
      ((AuctionSchedule.get_matching_proposals c2wstate.auction_schedule
          100).getD []).map
        (fun pr => make_attributes_for_proposer c2wattrs pr.1) :=
  ⟨(c2_duplicate_suppression c2wctx 0 c2wengine c2wstate c2wattrs c2wo1
      rfl).1,
   (c2_duplicate_suppression c2wctx 0 c2wengine c2wstate c2wattrs c2wo1
      rfl).2 100 rfl (by decide)⟩

/-- C4: a build whose engine-returned payload id differs from the locally
computed one is still treated as started, with the high-severity mismatch
diagnostic emitted (the `true` flag), and the resulting auction is recorded
in the open-auctions table under the locally computed id — the engine's id
gains no entry — and the stored auction is forwarded; the functions return
normally rather than aborting. -/
theorem c4_payload_id_mismatch_tolerated
    (engine : BuilderPayloadBuilderAttributes → Option PayloadId)
    (a : BuilderPayloadBuilderAttributes) (payload_id : PayloadId)
    (st : ServiceState) (slot : Slot) (proposer : Proposer)
    (relays : RelaySet)
    (heng : engine a = some payload_id) (hne : payload_id ≠ a.payload_id)
    (habs : assocLookup st.open_auctions a.payload_id = none)
    (habs2 : assocLookup st.open_auctions payload_id = none) :
    start_build engine a = (some payload_id, true) ∧
    assocLookup
      (process_new_auction st ⟨slot, a, proposer, relays⟩).1.open_auctions
      a.payload_id = some ⟨slot, a, proposer, relays⟩ ∧
    (process_new_auction st ⟨slot, a, proposer, relays⟩).2 =
      ⟨slot, a, proposer, relays⟩ ∧
    assocLookup
      (process_new_auction st ⟨slot, a, proposer, relays⟩).1.open_auctions
      payload_id = none := by
  refine ⟨?_, ?_, ?_, ?_⟩
  · unfold start_build
    rw [heng]
    simp [hne]
  · simp only [process_new_auction, habs]
    exact assocLookup_assocSet_self _ _ _
  · simp only [process_new_auction, habs]
  · simp only [process_new_auction, habs]
    rw [assocLookup_assocSet_ne _ _ _ _ hne]
    exact habs2

theorem c4_payload_id_mismatch_tolerated_witness :
    start_build c4wengine c4wattrs = (some 1, true) ∧
    assocLookup (process_new_auction c4wstate c4wauction).1.open_auctions
      c4wattrs.payload_id = some c4wauction ∧
    (process_new_auction c4wstate c4wauction).2 = c4wauction ∧
    assocLookup (process_new_auction c4wstate c4wauction).1.open_auctions 1 =
      none :=
  c4_payload_id_mismatch_tolerated c4wengine c4wattrs 1 c4wstate 5
    c4wproposer [0] rfl (by decide) rfl rfl

/-- C5: submission preparation recognizes exactly the Bellatrix, Capella and
Deneb fork variants: for these the constructed submission's variant equals
the execution payload's fork version, with a blobs bundle present exactly in
the Deneb variant; any other fork version hits the fatal unreachable branch
rather than being silently dropped. -/
theorem c5_fork_variants (payload : EthBuiltPayload)
    (signing_key public_key : Nat) (auction_context : AuctionContext) :
    ((to_execution_payload payload.block).version = Fork.bellatrix ∨
     (to_execution_payload payload.block).version = Fork.capella ∨
     (to_execution_payload payload.block).version = Fork.deneb →
      ∃ s, prepare_submission payload signing_key public_key auction_context =
          PanicOr.ok (Except.ok s) ∧
        s.version = (to_execution_payload payload.block).version ∧
        (s.blobs_bundle ≠ none ↔
          (to_execution_payload payload.block).version = Fork.deneb)) ∧
    ((to_execution_payload payload.block).version ≠ Fork.bellatrix →
     (to_execution_payload payload.block).version ≠ Fork.capella →
     (to_execution_payload payload.block).version ≠ Fork.deneb →
      prepare_submission payload signing_key public_key auction_context =
        PanicOr.panic "unreachable fork") := by
  obtain ⟨pid, block, fees, sidecars⟩ := payload
  obtain ⟨hash, number, parent_hash, gas_limit, gas_used, fork⟩ := block
  cases fork with
  | phase0 => exact ⟨fun h => absurd h (by simp [to_execution_payload]),
      fun _ _ _ => rfl⟩
  | altair => exact ⟨fun h => absurd h (by simp [to_execution_payload]),
      fun _ _ _ => rfl⟩
  | electra => exact ⟨fun h => absurd h (by simp [to_execution_payload]),
      fun _ _ _ => rfl⟩
  | bellatrix =>
    refine ⟨fun _ => ⟨_, rfl, rfl, by
      simp [SignedBidSubmission.blobs_bundle, to_execution_payload]⟩,
      fun h _ _ => absurd rfl h⟩
  | capella =>
    refine ⟨fun _ => ⟨_, rfl, rfl, by
      simp [SignedBidSubmission.blobs_bundle, to_execution_payload]⟩,
      fun _ h _ => absurd rfl h⟩
  | deneb =>
    refine ⟨fun _ => ⟨_, rfl, rfl, by
      simp [SignedBidSubmission.blobs_bundle, to_execution_payload]⟩,
      fun _ _ h => absurd rfl h⟩

theorem c5_fork_variants_witness :
    (∃ s, prepare_submission c5wdeneb 1 2 c5wauction =
        PanicOr.ok (Except.ok s) ∧
      s.version = (to_execution_payload c5wdeneb.block).version ∧
      (s.blobs_bundle ≠ none ↔
        (to_execution_payload c5wdeneb.block).version = Fork.deneb)) ∧
    prepare_submission c5welectra 1 2 c5wauction =
      PanicOr.panic "unreachable fork" :=
  ⟨(c5_fork_variants c5wdeneb 1 2 c5wauction).1 (Or.inr (Or.inr rfl)),
   (c5_fork_variants c5welectra 1 2 c5wauction).2 (by decide) (by decide)
     (by decide)⟩

/-- C7 counterexample: the claim says every bid trace carries the proposer's
gas limit; here the AuctionContext's proposer has a configured gas limit of
25 while the built block's gas limit is 30, and the constructed trace carries
30 — the trace's gas fields come from the payload's block, not from the
proposer info. -/
theorem c7_proposer_gas_limit_counterexample :
    ∃ s, prepare_submission c7wpayload 1 2 c7wauction =
        PanicOr.ok (Except.ok s) ∧
      c7wauction.proposer.gas_limit = 25 ∧
      s.message.gas_limit = 30 ∧
      s.message.gas_limit ≠ c7wauction.proposer.gas_limit :=
  ⟨c7wsub, rfl, rfl, rfl, by decide⟩

/-- C7 (amended): every bid trace built during submission preparation
carries, from the AuctionContext, the slot, the parent hash, the proposer's
public key and the proposer's fee recipient, and carries the gas limit and
gas used of the built payload's block (not the proposer's configured gas
limit) together with the realized value (the payload's fees). -/
theorem c7_bid_trace_fields (payload : EthBuiltPayload)
    (signing_key public_key : Nat) (auction_context : AuctionContext)
    (s : SignedBidSubmission)
    (h : prepare_submission payload signing_key public_key auction_context =
      PanicOr.ok (Except.ok s)) :
    s.message.slot = auction_context.slot ∧
    s.message.parent_hash = auction_context.attributes.inner.parent ∧
    s.message.block_hash = payload.block.hash ∧
    s.message.builder_public_key = public_key ∧
    s.message.proposer_public_key = auction_context.proposer.public_key ∧
    s.message.proposer_fee_recipient =
      auction_context.proposer.fee_recipient ∧
    s.message.gas_limit = payload.block.gas_limit ∧
    s.message.gas_used = payload.block.gas_used ∧
    s.message.value = payload.fees := by
  obtain ⟨pid, block, fees, sidecars⟩ := payload
  obtain ⟨hash, number, parent_hash, gas_limit, gas_used, fork⟩ := block
  cases fork with
  | phase0 => exact absurd h (by
      simp [prepare_submission, sign_builder_message, to_execution_payload])
  | altair => exact absurd h (by
      simp [prepare_submission, sign_builder_message, to_execution_payload])
  | electra => exact absurd h (by
      simp [prepare_submission, sign_builder_message, to_execution_payload])
  | bellatrix =>
    injection h with h
    injection h with h
    subst h
    exact ⟨rfl, rfl, rfl, rfl, rfl, rfl, rfl, rfl, rfl⟩
  | capella =>
    injection h with h
    injection h with h
    subst h
    exact ⟨rfl, rfl, rfl, rfl, rfl, rfl, rfl, rfl, rfl⟩
  | deneb =>
    injection h with h
    injection h with h
    subst h
    exact ⟨rfl, rfl, rfl, rfl, rfl, rfl, rfl, rfl, rfl⟩

theorem c7_bid_trace_fields_witness :
    c7wsub.message.slot = c7wauction.slot ∧
    c7wsub.message.parent_hash = c7wauction.attributes.inner.parent ∧
    c7wsub.message.block_hash = c7wpayload.block.hash ∧
    c7wsub.message.builder_public_key = 2 ∧
    c7wsub.message.proposer_public_key = c7wauction.proposer.public_key ∧
    c7wsub.message.proposer_fee_recipient =
      c7wauction.proposer.fee_recipient ∧
    c7wsub.message.gas_limit = c7wpayload.block.gas_limit ∧
    c7wsub.message.gas_used = c7wpayload.block.gas_used ∧
    c7wsub.message.value = c7wpayload.fees :=
  c7_bid_trace_fields c7wpayload 1 2 c7wauction c7wsub rfl

/-- C10: the payload id is inserted into the slot's processed-set before and
regardless of the schedule lookup, so when an attribute set first arrives
while the slot has no matching proposals nothing is built or forwarded, and a
redelivery of the same attributes — under any later auction schedule,
including one that now has a matching entry for the slot — is discarded as a
duplicate: no build is ever triggered for that attribute set. -/
theorem c10_processed_before_schedule_lookup (context : Context)
    (genesis_time : Nat)
    (engine : BuilderPayloadBuilderAttributes → Option PayloadId)
    (st : ServiceState) (a : BuilderPayloadBuilderAttributes) (slot : Slot)
    (o1 : AttrOutcome)
    (hconv : convert_timestamp_to_slot a.timestamp genesis_time
      context.seconds_per_slot = some slot)
    (hprop : AuctionSchedule.get_matching_proposals st.auction_schedule slot =
      none)
    (h1 : on_payload_attributes context genesis_time engine st a =
      PanicOr.ok o1) :
    o1.builds_requested = [] ∧ o1.forwarded = [] ∧
    (∀ sched : AuctionScheduleT,
      on_payload_attributes context genesis_time engine
        { o1.state with auction_schedule := sched } a =
        PanicOr.ok ⟨{ o1.state with auction_schedule := sched }, [], []⟩) := by
  by_cases hmem : a.payload_id ∈
      (assocLookup st.processed_payload_attributes slot).getD []
  · rw [on_payload_attributes_dup context genesis_time engine st a slot hconv
      hmem] at h1
    injection h1 with h1
    subst h1
    refine ⟨rfl, rfl, fun sched => ?_⟩
    exact on_payload_attributes_dup context genesis_time engine _ a slot hconv
      hmem
  · rw [on_payload_attributes_fresh_none context genesis_time engine st a slot
      hconv hmem hprop] at h1
    injection h1 with h1
    subst h1
    refine ⟨rfl, rfl, fun sched => ?_⟩
    apply on_payload_attributes_dup context genesis_time engine _ a slot hconv
    show a.payload_id ∈ (assocLookup
      (markProcessed st slot a.payload_id).processed_payload_attributes
      slot).getD []
    rw [markProcessed_lookup]
    exact List.mem_cons_self _ _

theorem c10_processed_before_schedule_lookup_witness :
    c10wo1.builds_requested = [] ∧
    on_payload_attributes c10wctx 0 c10wengine
      { c10wo1.state with auction_schedule := c10wsched } c10wattrs =
      PanicOr.ok ⟨{ c10wo1.state with auction_schedule := c10wsched }, [], []⟩ :=
  ⟨(c10_processed_before_schedule_lookup c10wctx 0 c10wengine c10wstate
      c10wattrs 50 c10wo1 rfl rfl rfl).1,
   (c10_processed_before_schedule_lookup c10wctx 0 c10wengine c10wstate
      c10wattrs 50 c10wo1 rfl rfl rfl).2.2 c10wsched⟩

end MevBuild
